import Mathlib

/-!
Shallow embedding of the search-aggregation pipeline of the
`search-agent-website` repository, and proofs checking the repository's
natural-language specification against it.

The embedded sources are:
- `src/search/content.py` (`retry_with_backoff`, `extract_content`),
- `src/search/engine.py` (`search_google`, `search_and_extract`,
  `search_information`),
- `src/search/server.py` (the `search` and `advanced_search` tools),
- `src/utils/search_utils.py` (the second copy of the pipeline).

Modelling conventions:
- Python machine-level effects (HTTP requests, BeautifulSoup parsing,
  wall-clock time) are oracles passed in explicitly; every oracle outcome a
  claim quantifies over is a constructor of an inductive type.
- Python exceptions are values of `PyExn`; code that can raise returns
  `Except PyExn α`; `try/except` blocks become pattern matches, so a theorem
  that every branch yields a `String` is the embedded form of
  "never raises to its caller".
- Python `str` is `String`; slicing/length are character-based in both.
- Character classes (`\w`, `\s`, `lower()`) are modelled at ASCII granularity,
  which is exact for every input these theorems evaluate.
- `time.time()` values are rationals (`ℚ`).
-/

namespace SearchAgent

/-! ## Basic string machinery (Python `re.sub(r'\s+', ' ', ·)`, `lower`, `in`) -/

/-- Python whitespace class `\s` (ASCII part): space, tab, LF, CR, VT, FF. -/
def isPyWs (c : Char) : Bool :=
  c == ' ' || c == '\t' || c == '\n' || c == '\r' || c == '\x0b' || c == '\x0c'

/-- Python word-character class `\w` (ASCII part): letters, digits, underscore. -/
def isWordChar (c : Char) : Bool :=
  c.isAlphanum || c == '_'

/-- Python `str.lower()` (ASCII part). -/
def lowerStr (s : String) : String :=
  ⟨s.data.map Char.toLower⟩

/-- Test whether the char list `s` starts with `pat`. -/
def startsWithL : List Char → List Char → Bool
  | _, [] => true
  | [], _ :: _ => false
  | a :: as, b :: bs => a == b && startsWithL as bs

/-- Python `s.startswith(pat)`. -/
def strStartsWith (s pat : String) : Bool :=
  startsWithL s.data pat.data

/-- Python `s.endswith(pat)` (suffix test). -/
def strEndsWith (s pat : String) : Bool :=
  startsWithL s.data.reverse pat.data.reverse

/-- Python `pat in s` on strings: substring containment, as char lists. -/
def containsL : List Char → List Char → Bool
  | [], pat => pat.isEmpty
  | s@(_ :: rest), pat => startsWithL s pat || containsL rest pat

/-- Python `pat in s` membership test on strings. -/
def strContains (s pat : String) : Bool :=
  containsL s.data pat.data

/-- Python `sep.join(parts)`. -/
def strJoin (sep : String) : List String → String
  | [] => ""
  | [x] => x
  | x :: xs => x ++ sep ++ strJoin sep xs

/-- One pass of `re.sub(r'\s+', ' ', ·)`: every maximal whitespace run becomes
a single `' '`.  The flag records whether the previous character was
whitespace (in which case further whitespace is skipped). -/
def collapseWsAux : Bool → List Char → List Char
  | _, [] => []
  | prevWs, c :: rest =>
    if isPyWs c then
      if prevWs then collapseWsAux true rest
      else ' ' :: collapseWsAux true rest
    else c :: collapseWsAux false rest

/-- The substitution `re.sub(r'\s+', ' ', text)` from the post-processing step of
`extract_content`. -/
def collapseWs (s : String) : String :=
  ⟨collapseWsAux false s.data⟩

/-! ## Python exceptions relevant to the pipeline -/

/-- The exception classes the pipeline distinguishes:
`aiohttp.ClientError`, `asyncio.TimeoutError`,
`UnicodeDecodeError`/`json.JSONDecodeError` (decode-class), and
any other `Exception`.  The payload is `str(e)`. -/
inductive PyExn where
  | client (msg : String)
  | timeout (msg : String)
  | decode (msg : String)
  | other (msg : String)
deriving DecidableEq, Repr

/-- The retry tuple of `retry_with_backoff`:
`except (aiohttp.ClientError, asyncio.TimeoutError)`. -/
def PyExn.isNet : PyExn → Bool
  | .client _ => true
  | .timeout _ => true
  | _ => false

/-- The `str(e)` payload of an exception. -/
def PyExn.msg : PyExn → String
  | .client m => m
  | .timeout m => m
  | .decode m => m
  | .other m => m

/-! ## `retry_with_backoff` (src/search/content.py lines 44-56; the copy in
src/utils/search_utils.py lines 52-64 is textually identical) -/

/-- Result of a `retry_with_backoff` run: the awaited value, a raised
exception, or the implicit `None` returned when `max_retries == 0`
(the `for` loop body never runs). -/
inductive RetryResult (α : Type) where
  | ok (v : α)
  | exn (e : PyExn)
  | noAttempt
deriving DecidableEq, Repr

/-- The `for retry in range(max_retries)` loop of `retry_with_backoff`.
`k` is the current value of `retry`; `remaining` counts loop iterations still
available (including the current one).  Returns the outcome, the list of
sleeps performed (in seconds, in order), and the number of attempts made.
The sleep after a failed attempt `k` is `base_delay * 2 ** retry`. -/
def retryAux (attempts : Nat → Except PyExn α) (baseDelay : ℚ) :
    Nat → Nat → RetryResult α × List ℚ × Nat
  | _, 0 => (.noAttempt, [], 0)
  | k, remaining + 1 =>
    match attempts k with
    | .ok v => (.ok v, [], 1)
    | .error e =>
      if e.isNet then
        match remaining with
        | 0 => (.exn e, [], 1)
        | r + 1 =>
          let rest := retryAux attempts baseDelay (k + 1) (r + 1)
          (rest.1, baseDelay * 2 ^ k :: rest.2.1, rest.2.2 + 1)
      else (.exn e, [], 1)

/-- The call `retry_with_backoff(func, max_retries=m, base_delay=b)`, with the `k`-th
call of `func` returning the oracle outcome `attempts k`. -/
def retryWithBackoff (attempts : Nat → Except PyExn α) (maxRetries : Nat)
    (baseDelay : ℚ) : RetryResult α × List ℚ × Nat :=
  retryAux attempts baseDelay 0 maxRetries

/-! ## `extract_content` (src/search/content.py lines 58-170; the identical
copy `extract_content_from_url` is src/utils/search_utils.py lines 125-237) -/

/-- Outcome of one HTTP GET attempt for a page, as observed by
`fetch_url_content`: either a response (status, `Content-Type` header, and
the body text that `response.text(errors='replace')` would yield), or an
exception raised during the attempt. -/
inductive AttemptOutcome where
  | resp (status : Nat) (contentType : String) (body : String)
  | raise (e : PyExn)
deriving DecidableEq, Repr

/-- The body of `fetch_url_content` applied to one attempt outcome:
non-200 status or a non-HTML `Content-Type` yield `""`, otherwise the body
text; a raised exception propagates. -/
def fetchUrlContent (o : AttemptOutcome) : Except PyExn String :=
  match o with
  | .resp status contentType body =>
    if status ≠ 200 then .ok ""
    else if !strContains (lowerStr contentType) "text/html" then .ok ""
    else .ok body
  | .raise e => .error e

/-- What the pipeline observes of a BeautifulSoup parse of one HTML
document (BeautifulSoup is an external library, abstracted as an oracle):
the `get_text(separator=' ', strip=True)` of each element matched by the
article-container selector, the `get_text(strip=True)` of each
`p/h1/h2/h3/h4/h5/li` element, and the whole-page `get_text`.  The
`script/style/meta/noscript/header/footer/nav` removal happens inside the
oracle. -/
structure SoupView where
  containers : List String
  paragraphs : List String
  fullText : String
deriving DecidableEq, Repr

/-- The container-selection loop: keep the container text strictly longer
than the best so far, starting from `text = ""`. -/
def longestContainer (cs : List String) : String :=
  cs.foldl (fun acc c => if c.length > acc.length then c else acc) ""

/-- The three-step text-selection heuristic of `extract_content`:
article containers, then paragraph/heading/list elements, then whole-page
text, falling through while the text is empty or shorter than 200
characters. -/
def selectText (sv : SoupView) : String :=
  let t1 := longestContainer sv.containers
  let t2 :=
    if t1 = "" ∨ t1.length < 200 then
      if sv.paragraphs.isEmpty then t1
      else strJoin " " (sv.paragraphs.filter (· ≠ ""))
    else t1
  if t2 = "" ∨ t2.length < 200 then sv.fullText else t2

/-- The post-processing of `extract_content`:
`text = re.sub(r'\s+', ' ', text)` followed by
`text[:MAX_CONTENT_LENGTH] + ("..." if len(text) > MAX_CONTENT_LENGTH else "")`. -/
def postprocess (maxContentLength : Nat) (s : String) : String :=
  let t := collapseWs s
  ⟨t.data.take maxContentLength⟩ ++
    (if t.length > maxContentLength then "..." else "")

/-- The non-HTML extension alternatives of the regex
`\.(jpg|jpeg|png|gif|pdf|doc|docx|xls|xlsx|zip|tar)$` (IGNORECASE), as
lowercase suffixes of the URL string. -/
def nonHtmlExts : List String :=
  [".jpg", ".jpeg", ".png", ".gif", ".pdf", ".doc", ".docx", ".xls",
   ".xlsx", ".zip", ".tar"]

/-- The test `re.search(r'\.(jpg|...)$', url, re.IGNORECASE)` as a Boolean: the URL
string ends, case-insensitively, in one of the listed extensions.  Note the
regex is applied to the whole URL string, not to its path component. -/
def matchesNonHtmlExt (url : String) : Bool :=
  nonHtmlExts.any (fun ext => strEndsWith (lowerStr url) ext)

/-- The `problematic_domains` list, extended with the Brotli-dependent list when the
`brotli` package is unavailable. -/
def problematicDomains (brotliAvailable : Bool) : List String :=
  ["facebook.com", "instagram.com", "twitter.com"] ++
    (if brotliAvailable then []
     else ["nbcnews.com", "cnn.com", "edition.cnn.com", "foxnews.com"])

/-- The test `any(domain in url.lower() for domain in problematic_domains)`:
a block-listed domain occurring anywhere in the lowercased URL string. -/
def isProblematicUrl (brotliAvailable : Bool) (url : String) : Bool :=
  (problematicDomains brotliAvailable).any (fun d => strContains (lowerStr url) d)

/-- The oracles `extract_content` consults for one URL: the outcome of each
HTTP GET attempt (indexed by attempt number), the BeautifulSoup view of any
fetched HTML, whether Brotli is importable, and
`settings.MAX_CONTENT_LENGTH`. -/
structure FetchEnv where
  attempts : Nat → AttemptOutcome
  soup : String → SoupView
  brotliAvailable : Bool
  maxContentLength : Nat

/-- The two `except` clauses of `extract_content`:
`(aiohttp.ClientError, asyncio.TimeoutError, UnicodeDecodeError)` become
`"Error extracting content: {e}"`, any other `Exception` becomes
`"Unexpected error: {e}"`. -/
def extractExnMsg (e : PyExn) : String :=
  match e with
  | .client m => "Error extracting content: " ++ m
  | .timeout m => "Error extracting content: " ++ m
  | .decode m => "Error extracting content: " ++ m
  | .other m => "Unexpected error: " ++ m

/-- The function `extract_content(url)`.  Returns the string the function returns,
paired with the number of HTTP GET attempts issued (0 on the pre-network
short-circuits).  The call
`retry_with_backoff(fetch_url_content, max_retries=2, base_delay=0.5)` is
embedded via `retryWithBackoff`. -/
def extractContent (env : FetchEnv) (url : String) : String × Nat :=
  if url = "" ∨ ¬(strStartsWith url "http://" ∨ strStartsWith url "https://") then
    ("Invalid URL format", 0)
  else if matchesNonHtmlExt url then
    ("URL points to a non-HTML file", 0)
  else if isProblematicUrl env.brotliAvailable url then
    ("Content from " ++ url ++ " (URL requires Brotli support for proper access)", 0)
  else
    let r := retryWithBackoff (fun k => fetchUrlContent (env.attempts k)) 2 (1 / 2)
    match r.1 with
    | .ok html =>
      (if html = "" then ""
       else postprocess env.maxContentLength (selectText (env.soup html)), r.2.2)
    | .exn e => (extractExnMsg e, r.2.2)
    | .noAttempt => ("", r.2.2)

/-! ## Search provider (`search_google`, src/search/engine.py lines 23-80 and
src/utils/search_utils.py lines 66-123) -/

/-- One search hit, after the field-defaulting ingestion
(`item.get('title', 'No title')` etc.). -/
structure Hit where
  title : String
  url : String
  snippet : String
deriving DecidableEq, Repr

/-- Outcome of one HTTP attempt of `make_search_request`: a response
(status, and the parsed JSON's `items`, already converted to hits;
`none` for a JSON object with no `items` key), or a raised exception. -/
inductive ProviderAttempt where
  | resp (status : Nat) (items : Option (List Hit))
  | raise (e : PyExn)
deriving DecidableEq, Repr

/-- The body of `make_search_request` applied to one attempt outcome, combined with the
`'items' not in results` check that follows it: a non-200 response makes
`make_search_request` return `[]`, so the `items` check fails and
`search_google` returns `[]`; same for JSON without `items`. -/
def makeSearchRequest (o : ProviderAttempt) : Except PyExn (Option (List Hit)) :=
  match o with
  | .resp status items => .ok (if status = 200 then items else none)
  | .raise e => .error e

/-- The `except (aiohttp.ClientError, asyncio.TimeoutError,
json.JSONDecodeError)` clause of `search_google`, which converts the
exception into an empty result list. -/
def googleCatches (e : PyExn) : Bool :=
  match e with
  | .client _ => true
  | .timeout _ => true
  | .decode _ => true
  | .other _ => false

/-- Shared oracle state for one aggregation pipeline: outcomes of provider
HTTP attempts per `(query, num_results)`, outcomes of page GET attempts per
URL, the BeautifulSoup abstraction, Brotli availability, and
`settings.MAX_CONTENT_LENGTH`. -/
structure World where
  sg : String → Int → Nat → ProviderAttempt
  page : String → Nat → AttemptOutcome
  soup : String → SoupView
  brotliAvailable : Bool
  maxContentLength : Nat

/-- The `FetchEnv` that `extract_content` sees for one URL of a `World`. -/
def World.fetchEnv (w : World) (url : String) : FetchEnv :=
  { attempts := w.page url
    soup := w.soup
    brotliAvailable := w.brotliAvailable
    maxContentLength := w.maxContentLength }

/-- The provider call `search_google` as written in src/search/engine.py: a single
`make_search_request()` call inside the try block (no retry wrapper).
Returns the hit list (or a propagating exception) and the number of
provider HTTP attempts issued. -/
def searchGoogleEngine (w : World) (q : String) (n : Int) :
    Except PyExn (List Hit) × Nat :=
  match makeSearchRequest (w.sg q n 0) with
  | .ok none => (.ok [], 1)
  | .ok (some hits) => (.ok hits, 1)
  | .error e => (if googleCatches e then .ok [] else .error e, 1)

/-- The provider call `search_google` as written in src/utils/search_utils.py:
`retry_with_backoff(make_search_request, max_retries=2)` (so
`base_delay = 1`) inside the try block. -/
def searchGoogleUtils (w : World) (q : String) (n : Int) :
    Except PyExn (List Hit) × Nat :=
  let r := retryWithBackoff (fun k => makeSearchRequest (w.sg q n k)) 2 1
  match r.1 with
  | .ok none => (.ok [], r.2.2)
  | .ok (some hits) => (.ok hits, r.2.2)
  | .exn e => (if googleCatches e then .ok [] else .error e, r.2.2)
  | .noAttempt => (.ok [], r.2.2)  -- unreachable: max_retries = 2 > 0

/-! ## `search_and_extract` and `search_information`
(src/search/engine.py lines 82-236, src/utils/search_utils.py lines 239-398;
the two copies differ only in which `search_google` they call) -/

/-- A hit enriched with extracted page content. -/
structure EnrichedHit where
  title : String
  url : String
  snippet : String
  content : String
deriving DecidableEq, Repr

/-- Enrich one hit: `content = await extract_content(result['url'])`. -/
def enrichHit (w : World) (h : Hit) : EnrichedHit :=
  { title := h.title, url := h.url, snippet := h.snippet
    content := (extractContent (w.fetchEnv h.url) h.url).1 }

/-- One observable network-level event of the pipeline: an invocation of
`search_google` (with its argument pair and the number of provider HTTP
attempts it issued), or a page fetch performed by `extract_content` for one
URL (with its number of HTTP GET attempts, 0 when short-circuited before
the network). -/
inductive Event where
  | sgCall (q : String) (n : Int) (httpAttempts : Nat)
  | pageFetch (url : String) (httpAttempts : Nat)
deriving DecidableEq, Repr

/-- The `search_google` invocations recorded in a trace. -/
def sgCalls (tr : List Event) : List (String × Int) :=
  tr.filterMap (fun e => match e with
    | .sgCall q n _ => some (q, n)
    | .pageFetch _ _ => none)

/-- The function `search_and_extract(query, num_results)`, parametrized by which copy of
`search_google` it calls.  Returns either the filtered enriched-hit list
(hits whose extracted content is the empty string are dropped by
`if result and result.get('content')`) or a propagating exception, plus the
event trace. -/
def searchAndExtract (sgRun : World → String → Int → Except PyExn (List Hit) × Nat)
    (w : World) (q : String) (n : Int) :
    Except PyExn (List EnrichedHit) × List Event :=
  let sgr := sgRun w q n
  let ev0 : Event := .sgCall q n sgr.2
  match sgr.1 with
  | .error e => (.error e, [ev0])
  | .ok hits =>
    if hits.isEmpty then (.ok [], [ev0])
    else
      let enriched := hits.map (enrichHit w)
      let fetchEvents := hits.map
        (fun h => Event.pageFetch h.url (extractContent (w.fetchEnv h.url) h.url).2)
      (.ok (enriched.filter (fun r => r.content ≠ "")), ev0 :: fetchEvents)

/-- The simplified-query fallback of `search_information`:
`re.sub(r'[^\w\s]', '', q)`, then removal of the whole words
`what|how|when|where|who|is|are|the|a|an` (IGNORECASE), then
`re.sub(r'\s+', ' ', ·).strip()`.  After the first substitution the string
holds only word characters and whitespace, so the word-boundary matches of
the second substitution delete exactly the whitespace-separated tokens that
equal a stop word case-insensitively, and the final collapse-and-strip
joins the surviving tokens with single spaces. -/
def stopWords : List String :=
  ["what", "how", "when", "where", "who", "is", "are", "the", "a", "an"]

/-- The maximal non-whitespace runs of a char list, as strings (the
accumulator holds the current run, reversed). -/
def wsTokensAux : List Char → List Char → List String
  | [], acc => if acc.isEmpty then [] else [⟨acc.reverse⟩]
  | c :: rest, acc =>
    if isPyWs c then
      if acc.isEmpty then wsTokensAux rest []
      else ⟨acc.reverse⟩ :: wsTokensAux rest []
    else wsTokensAux rest (c :: acc)

/-- The whitespace-separated tokens of a string (no empty tokens). -/
def wsTokens (s : String) : List String :=
  wsTokensAux s.data []

/-- See `stopWords`. -/
def simplifyQuery (q : String) : String :=
  let q1 : String := ⟨q.data.filter (fun c => isWordChar c || isPyWs c)⟩
  let toks := (wsTokens q1).filter (fun t => !(stopWords.contains (lowerStr t)))
  strJoin " " toks

/-- The fixed no-results message of `search_information`. -/
def noResultsMsg : String :=
  "No results found for the given query. Try rephrasing your question or using different keywords."

/-- The 80-dash separator line of the result formatting. -/
def sepLine : String := ⟨List.replicate 80 '-'⟩

/-- One formatted result block (`SOURCE i: ...` through the separator). -/
def formatBlock (i : Nat) (r : EnrichedHit) : String :=
  "SOURCE " ++ toString i ++ ": " ++ r.title ++ "\n" ++
  "URL: " ++ r.url ++ "\n" ++
  "SUMMARY: " ++ r.snippet ++ "\n" ++
  "\nCONTENT:\n" ++ r.content ++ "\n" ++
  sepLine ++ "\n"

/-- The formatting loop: `enumerate(results, 1)`, skipping (without
renumbering) entries with empty content, then `"\n".join(...)`. -/
def formatResults (results : List EnrichedHit) : String :=
  strJoin "\n" ((results.enumFrom 1).filterMap
    (fun p => if p.2.content = "" then none else some (formatBlock p.1 p.2)))

/-- The module-level `_search_cache`: an association of cache keys to
`(insertion time, cached document)` pairs. -/
def Cache := List (String × ℚ × String)

/-- The lookup `_search_cache.get(cache_key)`. -/
def cacheGet (c : Cache) (k : String) : Option (ℚ × String) :=
  match c with
  | [] => none
  | (k', v) :: rest => if k' = k then some v else cacheGet rest k

/-- The write `_search_cache[cache_key] = (time.time(), content)` followed by the
size-bounded pruning: when the cache holds more than 100 entries, drop the
entries with `now - t > CACHE_TTL`. -/
def cachePut (c : Cache) (k : String) (now : ℚ) (v : String) (ttl : ℚ) : Cache :=
  let c' : Cache := (k, now, v) :: c.filter (fun e => e.1 ≠ k)
  if c'.length > 100 then c'.filter (fun e => ¬(now - e.2.1 > ttl)) else c'

/-- The `except` clauses at the bottom of `search_information`:
`asyncio.TimeoutError` becomes the timeout message, any other `Exception`
becomes `"Error during search: {e}"`. -/
def searchInfoExnMsg (e : PyExn) : String :=
  match e with
  | .timeout _ => "Search timed out. Please try a more specific query."
  | _ => "Error during search: " ++ e.msg

/-- The body of `search_information` after the cache check: search and
extract, fall back to the simplified query, and either return the
no-results message (uncached) or format, cache and return the document. -/
def searchInfoCore (sgRun : World → String → Int → Except PyExn (List Hit) × Nat)
    (w : World) (cache : Cache) (key : String) (tEnd : ℚ) (ttl : ℚ)
    (elapsedStr : String) (q : String) (n : Int) :
    String × Cache × List Event :=
  let finish := fun (results : List EnrichedHit) (tr : List Event) =>
    if results.isEmpty then (noResultsMsg, cache, tr)
    else
      let content := formatResults results ++
        "\nSearch completed in " ++ elapsedStr ++ " seconds."
      (content, cachePut cache key tEnd content ttl, tr)
  match searchAndExtract sgRun w q n with
  | (.error e, tr) => (searchInfoExnMsg e, cache, tr)
  | (.ok results, tr) =>
    if results.isEmpty then
      let sq := simplifyQuery q
      if sq ≠ "" ∧ sq ≠ q then
        match searchAndExtract sgRun w sq n with
        | (.error e, tr2) => (searchInfoExnMsg e, cache, tr ++ tr2)
        | (.ok results2, tr2) => finish results2 (tr ++ tr2)
      else finish results tr
    else finish results tr

/-- The function `search_information(search_query, num_results)`, parametrized by the
`search_google` copy.  `tStart` is the `time.time()` of the cache check,
`tEnd` the `time.time()` of the cache write, `elapsedStr` the formatted
`f"{elapsed:.2f}"` value, `ttl` is `CACHE_TTL`.  Returns the returned
string, the cache after the call, and the event trace (empty on a cache
hit: the provider is never invoked). -/
def searchInformationGen
    (sgRun : World → String → Int → Except PyExn (List Hit) × Nat)
    (w : World) (cache : Cache) (tStart tEnd : ℚ) (ttl : ℚ)
    (elapsedStr : String) (q : String) (n : Int) :
    String × Cache × List Event :=
  let key := q ++ "_" ++ toString n
  match cacheGet cache key with
  | some (tc, r) =>
    if tStart - tc < ttl then (r, cache, [])
    else searchInfoCore sgRun w cache key tEnd ttl elapsedStr q n
  | none => searchInfoCore sgRun w cache key tEnd ttl elapsedStr q n

/-- The pipeline of src/search/engine.py (with
`extract_content` from src/search/content.py). -/
def searchInformationEngine := searchInformationGen searchGoogleEngine

/-- The pipeline of src/utils/search_utils.py. -/
def searchInformationUtils := searchInformationGen searchGoogleUtils

/-! ## The server layer (src/search/server.py) -/

/-- The clamp `num_results = max(1, min(num_results, 10))`, as performed by both the
`search` and `advanced_search` tools. -/
def clampNum (n : Int) : Int := max 1 (min n 10)

/-- The argument pair the `search` tool passes to `search_information`;
`none` when the query fails the `if not query` validation and
`search_information` is never called. -/
def searchToolDelegate (query : String) (n : Int) : Option (String × Int) :=
  if query = "" then none else some (query, clampNum n)

/-- The query rewriting of `advanced_search`: wrap the query and append the
`" OR "`-joined `site:` clauses when `include_domains` is non-empty, then
append one `" -site:domain"` per excluded domain. -/
def advancedQuery (query : String) (includeDomains excludeDomains : List String) :
    String :=
  let m1 :=
    if includeDomains.isEmpty then query
    else "(" ++ query ++ ") " ++
      strJoin " OR " (includeDomains.map (fun d => "site:" ++ d))
  excludeDomains.foldl (fun acc d => acc ++ " -site:" ++ d) m1

/-- The argument pair `advanced_search` passes to `search_information`
(it has no query validation and always delegates). -/
def advancedSearchToolDelegate (query : String) (n : Int)
    (includeDomains excludeDomains : List String) : String × Int :=
  (advancedQuery query includeDomains excludeDomains, clampNum n)

/-! ## Predicates describing collapsed text (for the post-processing
claims) -/

/-- In whitespace-collapsed text every whitespace character is a plain
space. -/
def okWsChar (c : Char) : Bool := !(isPyWs c) || (c == ' ')

/-- The adjacent-pair relation of whitespace-collapsed text: no two
adjacent whitespace characters. -/
def noWsPair (a b : Char) : Prop := ¬(isPyWs a = true ∧ isPyWs b = true)

/-! ## Concrete oracle instances used by witnesses and counterexamples -/

/-- An attempt oracle whose first attempt times out and whose later
attempts succeed. -/
def c3Attempts : Nat → Except PyExn Unit :=
  fun i => if i = 0 then .error (.timeout "t") else .ok ()

/-- A fetch environment whose HTTP GET succeeds with a small HTML page. -/
def okFetchEnv : FetchEnv :=
  { attempts := fun _ => .resp 200 "text/html; charset=utf-8" "<p>x</p>"
    soup := fun _ => ⟨[], ["some page text"], "some page text"⟩
    brotliAvailable := true
    maxContentLength := 5000 }

/-- The C4 counterexample URL: its path `/img.jpg` ends in the non-HTML
extension `.jpg`, but the URL string itself ends in the query string. -/
def c4Url : String := "http://example.org/img.jpg?size=large"

/-- A world whose provider always returns one hit and whose page fetches
succeed. -/
def okWorld : World :=
  { sg := fun _ _ _ => .resp 200 (some [⟨"T", "http://e.org/p", "S"⟩])
    page := fun _ _ => .resp 200 "text/html" "<html>"
    soup := fun _ => ⟨[], ["hi there"], "hi there"⟩
    brotliAvailable := true
    maxContentLength := 5000 }

/-- A world whose provider returns a 200 response with zero hits. -/
def noHitsWorld : World :=
  { sg := fun _ _ _ => .resp 200 (some [])
    page := fun _ _ => .resp 200 "text/html" "x"
    soup := fun _ => ⟨[], [], ""⟩
    brotliAvailable := true
    maxContentLength := 5000 }

/-- The C9 counterexample world: the first provider HTTP attempt of every
request times out, the second succeeds with one hit; page fetches
succeed. -/
def c9World : World :=
  { sg := fun _ _ k =>
      if k = 0 then .raise (.timeout "Connection timeout")
      else .resp 200 (some [⟨"T", "http://e.org/p", "S"⟩])
    page := fun _ _ => .resp 200 "text/html" "<html>"
    soup := fun _ => ⟨[], ["page text"], "page text"⟩
    brotliAvailable := true
    maxContentLength := 5000 }

/-- A world whose provider returns one hit with an invalid URL, so that the
content fetch yields the `"Invalid URL format"` diagnostic. -/
def badUrlWorld : World :=
  { sg := fun _ _ _ => .resp 200 (some [⟨"Bad", "notaurl", "Snip"⟩])
    page := fun _ _ => .resp 200 "text/html" "x"
    soup := fun _ => ⟨[], [], ""⟩
    brotliAvailable := true
    maxContentLength := 5000 }

/-! ## Helper lemmas on strings -/

theorem strData_ext {a b : String} (h : a.data = b.data) : a = b := by
  cases a; cases b; exact congrArg String.mk h

theorem strAppend_data (a b : String) : (a ++ b).data = a.data ++ b.data := by
  cases a; cases b; rfl

theorem strAppend_assoc (a b c : String) : a ++ b ++ c = a ++ (b ++ c) := by
  apply strData_ext
  simp [strAppend_data]

theorem strAppend_empty (a : String) : a ++ "" = a := by
  apply strData_ext
  rw [strAppend_data]
  exact List.append_nil a.data

theorem strEmpty_append (a : String) : "" ++ a = a := by
  apply strData_ext
  rw [strAppend_data]
  rfl

theorem strLength_data (s : String) : s.length = s.data.length := rfl

theorem strLength_append (a b : String) : (a ++ b).length = a.length + b.length := by
  rw [strLength_data, strLength_data, strLength_data, strAppend_data]
  exact List.length_append a.data b.data

/-- Decompositions showing a fixed middle string survive appending on the
left. -/
theorem decomp_append_left {s x : String}
    (h : ∃ pre post, s = pre ++ x ++ post) (a : String) :
    ∃ pre post, a ++ s = pre ++ x ++ post := by
  obtain ⟨pre, post, rfl⟩ := h
  exact ⟨a ++ pre, post, by rw [strAppend_assoc a, strAppend_assoc a]⟩

/-- Decompositions showing a fixed middle string survive appending on the
right. -/
theorem decomp_append_right {s x : String}
    (h : ∃ pre post, s = pre ++ x ++ post) (b : String) :
    ∃ pre post, s ++ b = pre ++ x ++ post := by
  obtain ⟨pre, post, rfl⟩ := h
  exact ⟨pre, post ++ b, by rw [strAppend_assoc (pre ++ x), strAppend_assoc pre]⟩

theorem strJoin_cons_cons (sep x y : String) (t : List String) :
    strJoin sep (x :: y :: t) = x ++ sep ++ strJoin sep (y :: t) := rfl

/-- A member of a joined list appears verbatim in the join. -/
theorem strJoin_mem_decomp (sep x : String) :
    ∀ l : List String, x ∈ l → ∃ pre post, strJoin sep l = pre ++ x ++ post
  | [], h => absurd h (List.not_mem_nil x)
  | [y], h => by
    rcases List.mem_singleton.mp h with rfl
    exact ⟨"", "", by rw [strEmpty_append, strAppend_empty]; rfl⟩
  | y :: z :: t, h => by
    rcases List.mem_cons.mp h with rfl | h'
    · refine ⟨"", sep ++ strJoin sep (z :: t), ?_⟩
      rw [strEmpty_append, strJoin_cons_cons, strAppend_assoc]
    · have h2 := decomp_append_left
        (decomp_append_left (strJoin_mem_decomp sep x (z :: t) h') sep) y
      simpa only [strJoin_cons_cons, strAppend_assoc] using h2

/-- The exclusion fold of `advanced_search` only appends to its
accumulator. -/
theorem excludeFold_decomp :
    ∀ (l : List String) (acc : String),
      ∃ s, l.foldl (fun a d => a ++ " -site:" ++ d) acc = acc ++ s
  | [], acc => ⟨"", by rw [strAppend_empty]; rfl⟩
  | d :: t, acc => by
    obtain ⟨s, hs⟩ := excludeFold_decomp t (acc ++ " -site:" ++ d)
    exact ⟨" -site:" ++ d ++ s, by
      simpa [List.foldl_cons, strAppend_assoc] using hs⟩

/-- Each excluded domain's `-site:` clause appears verbatim in the folded
query. -/
theorem excludeFold_mem_decomp (d : String) :
    ∀ (l : List String) (acc : String), d ∈ l →
      ∃ pre post,
        l.foldl (fun a d => a ++ " -site:" ++ d) acc = pre ++ ("-site:" ++ d) ++ post
  | [], _, h => absurd h (List.not_mem_nil d)
  | e :: t, acc, h => by
    rcases List.mem_cons.mp h with rfl | h'
    · obtain ⟨s, hs⟩ := excludeFold_decomp t (acc ++ " -site:" ++ d)
      refine ⟨acc ++ " ", s, ?_⟩
      rw [List.foldl_cons, hs]
      have : acc ++ " -site:" ++ d = acc ++ " " ++ ("-site:" ++ d) := by
        rw [strAppend_assoc acc, strAppend_assoc acc]
        congr 1
      rw [this, strAppend_assoc (acc ++ " ")]
    · exact excludeFold_mem_decomp d t (acc ++ " -site:" ++ e) h'

/-! ## C7 -/

/-- C7: for every call to the public `search` and `advanced_search`
operations with any integer `num_results`, the result count actually passed
to `search_information` is `max 1 (min n 10)`, which lies in `[1, 10]`:
values below 1 are raised to 1 and values above 10 are lowered to 10
(and in-range values pass through). -/
theorem c7_num_results_clamped (q : String) (n : Int) (incl excl : List String) :
    1 ≤ clampNum n ∧ clampNum n ≤ 10 ∧
    (n < 1 → clampNum n = 1) ∧
    (10 < n → clampNum n = 10) ∧
    (1 ≤ n → n ≤ 10 → clampNum n = n) ∧
    (q ≠ "" → searchToolDelegate q n = some (q, clampNum n)) ∧
    advancedSearchToolDelegate q n incl excl =
      (advancedQuery q incl excl, clampNum n) := by
  refine ⟨?_, ?_, ?_, ?_, ?_, fun hq => ?_, rfl⟩
  · unfold clampNum; omega
  · unfold clampNum; omega
  · intro h; unfold clampNum; omega
  · intro h; unfold clampNum; omega
  · intro h1 h2; unfold clampNum; omega
  · unfold searchToolDelegate
    rw [if_neg hq]

/-- Witness for C7 at concrete inputs: `num_results = -5` is raised to 1,
`42` is lowered to 10, and the `search` tool delegates the clamped pair. -/
theorem c7_num_results_clamped_witness :
    clampNum (-5) = 1 ∧ clampNum 42 = 10 ∧
    searchToolDelegate "rust" 42 = some ("rust", clampNum 42) := by
  obtain ⟨-, -, h1, h10, -, hdel, -⟩ := c7_num_results_clamped "rust" 42 [] []
  obtain ⟨-, -, h1', -, -, -, -⟩ := c7_num_results_clamped "rust" (-5) [] []
  exact ⟨h1' (by decide), h10 (by decide), hdel (by decide)⟩

/-! ## C8 -/

/-- C8: `advanced_search` rewrites the query by appending OR-joined `site:`
clauses for every included domain and a `-site:d` clause for every excluded
domain, then delegates the rewritten query (with the clamped count) to
`search_information`; in particular with `include_domains =
["wikipedia.org"]` the delegated query contains `site:wikipedia.org`. -/
theorem c8_advanced_search_rewrite (q : String) (n : Int)
    (incl excl : List String) (d : String) :
    (d ∈ incl →
      ∃ pre post, advancedQuery q incl excl = pre ++ ("site:" ++ d) ++ post) ∧
    (d ∈ excl →
      ∃ pre post, advancedQuery q incl excl = pre ++ ("-site:" ++ d) ++ post) ∧
    advancedSearchToolDelegate q n incl excl =
      (advancedQuery q incl excl, clampNum n) ∧
    (∃ pre post,
      advancedQuery q ["wikipedia.org"] excl = pre ++ "site:wikipedia.org" ++ post) := by
  refine ⟨fun hmem => ?_, fun hmem => ?_, rfl, ?_⟩
  · unfold advancedQuery
    rw [if_neg (by simp [List.isEmpty_iff]; rintro rfl; exact absurd hmem (List.not_mem_nil d))]
    have hjoin := strJoin_mem_decomp " OR " ("site:" ++ d)
      (incl.map (fun d => "site:" ++ d)) (List.mem_map_of_mem _ hmem)
    obtain ⟨s, hs⟩ := excludeFold_decomp excl
      ("(" ++ q ++ ") " ++ strJoin " OR " (incl.map (fun d => "site:" ++ d)))
    rw [hs]
    exact decomp_append_right (decomp_append_left hjoin ("(" ++ q ++ ") ")) s
  · exact excludeFold_mem_decomp d excl _ hmem
  · unfold advancedQuery
    rw [if_neg (by simp)]
    obtain ⟨s, hs⟩ := excludeFold_decomp excl
      ("(" ++ q ++ ") " ++ strJoin " OR " (["wikipedia.org"].map (fun d => "site:" ++ d)))
    rw [hs]
    refine decomp_append_right (decomp_append_left ?_ ("(" ++ q ++ ") ")) s
    exact ⟨"", "", by rw [strEmpty_append, strAppend_empty]; rfl⟩

/-- Witness for C8: `advanced_search("rust", 5,
include_domains=["wikipedia.org"], exclude_domains=["reddit.com"])`
delegates a query containing both `site:wikipedia.org` and
`-site:reddit.com`. -/
theorem c8_advanced_search_rewrite_witness :
    (∃ pre post, advancedQuery "rust" ["wikipedia.org"] ["reddit.com"] =
      pre ++ ("site:" ++ "wikipedia.org") ++ post) ∧
    (∃ pre post, advancedQuery "rust" ["wikipedia.org"] ["reddit.com"] =
      pre ++ ("-site:" ++ "reddit.com") ++ post) := by
  obtain ⟨hincl, hexcl, -, -⟩ :=
    c8_advanced_search_rewrite "rust" 5 ["wikipedia.org"] ["reddit.com"] "wikipedia.org"
  obtain ⟨-, hexcl', -, -⟩ :=
    c8_advanced_search_rewrite "rust" 5 ["wikipedia.org"] ["reddit.com"] "reddit.com"
  exact ⟨hincl (by decide), hexcl' (by decide)⟩

/-! ## Lemmas about `retry_with_backoff` -/

theorem retryAux_zero {α : Type} (attempts : Nat → Except PyExn α) (b : ℚ) (k : Nat) :
    retryAux attempts b k 0 = (.noAttempt, [], 0) := rfl

theorem retryAux_ok {α : Type} {attempts : Nat → Except PyExn α} {k : Nat} {v : α}
    (b : ℚ) (rem : Nat) (h : attempts k = .ok v) :
    retryAux attempts b k (rem + 1) = (.ok v, [], 1) := by
  rw [retryAux.eq_2, h]

theorem retryAux_nonnet {α : Type} {attempts : Nat → Except PyExn α} {k : Nat}
    {e : PyExn} (b : ℚ) (rem : Nat) (h : attempts k = .error e)
    (hn : e.isNet = false) :
    retryAux attempts b k (rem + 1) = (.exn e, [], 1) := by
  rw [retryAux.eq_2, h]
  simp only [hn, if_false, Bool.false_eq_true]

theorem retryAux_last {α : Type} {attempts : Nat → Except PyExn α} {k : Nat}
    {e : PyExn} (b : ℚ) (h : attempts k = .error e) (hn : e.isNet = true) :
    retryAux attempts b k 1 = (.exn e, [], 1) := by
  conv_lhs => rw [show (1 : Nat) = 0 + 1 from rfl]
  rw [retryAux.eq_2, h]
  simp only [hn, if_true]

theorem retryAux_retry {α : Type} {attempts : Nat → Except PyExn α} {k : Nat}
    {e : PyExn} (b : ℚ) (rem : Nat) (h : attempts k = .error e)
    (hn : e.isNet = true) :
    retryAux attempts b k (rem + 2) =
      ((retryAux attempts b (k + 1) (rem + 1)).1,
       b * 2 ^ k :: (retryAux attempts b (k + 1) (rem + 1)).2.1,
       (retryAux attempts b (k + 1) (rem + 1)).2.2 + 1) := by
  rw [retryAux.eq_2, h]
  simp only [hn, if_true]

theorem range_map_pow_cons (b : ℚ) (k cnt : Nat) :
    b * 2 ^ k :: (List.range cnt).map (fun i => b * 2 ^ (k + 1 + i)) =
      (List.range (cnt + 1)).map (fun i => b * 2 ^ (k + i)) := by
  rw [List.range_succ_eq_map, List.map_cons, List.map_map]
  refine congrArg₂ _ (by rw [Nat.add_zero]) (List.map_congr_left ?_)
  intro i _
  simp only [Function.comp_apply]
  congr 2
  omega

/-- The number of attempts made never exceeds the remaining iteration
budget. -/
theorem retryAux_attempts_le {α : Type} (attempts : Nat → Except PyExn α) (b : ℚ) :
    ∀ (rem k : Nat), (retryAux attempts b k rem).2.2 ≤ rem
  | 0, _ => Nat.le_refl 0
  | rem + 1, k => by
    match h : attempts k with
    | .ok v =>
      rw [retryAux_ok b rem h]
      exact Nat.succ_le_succ (Nat.zero_le rem)
    | .error e =>
      match hn : e.isNet with
      | false =>
        rw [retryAux_nonnet b rem h hn]
        exact Nat.succ_le_succ (Nat.zero_le rem)
      | true =>
        match rem with
        | 0 => rw [retryAux_last b h hn]
        | r + 1 =>
          rw [retryAux_retry b r h hn]
          exact Nat.succ_le_succ (retryAux_attempts_le attempts b (r + 1) (k + 1))

/-- The sleeps of a retry run are always the prefix
`b·2^k, b·2^(k+1), ...` of the exponential schedule. -/
theorem retryAux_delays {α : Type} (attempts : Nat → Except PyExn α) (b : ℚ) :
    ∀ (rem k : Nat), ∃ cnt,
      (retryAux attempts b k rem).2.1 = (List.range cnt).map (fun i => b * 2 ^ (k + i))
  | 0, _ => ⟨0, by rw [retryAux_zero]; rfl⟩
  | rem + 1, k => by
    match h : attempts k with
    | .ok v => exact ⟨0, by rw [retryAux_ok b rem h]; rfl⟩
    | .error e =>
      match hn : e.isNet with
      | false => exact ⟨0, by rw [retryAux_nonnet b rem h hn]; rfl⟩
      | true =>
        match rem with
        | 0 => exact ⟨0, by rw [retryAux_last b h hn]; rfl⟩
        | r + 1 =>
          obtain ⟨cnt, hc⟩ := retryAux_delays attempts b (r + 1) (k + 1)
          exact ⟨cnt + 1, by rw [retryAux_retry b r h hn, hc, range_map_pow_cons]⟩

/-- Skipping `j` initial attempts that all fail with network-class errors:
the run is the run starting at attempt `j`, prefixed by the `j` exponential
sleeps and `j` extra attempts. -/
theorem retryAux_skip {α : Type} (attempts : Nat → Except PyExn α) (b : ℚ) :
    ∀ (j k rem : Nat), j < rem →
    (∀ i, i < j → ∃ e, attempts (k + i) = .error e ∧ e.isNet = true) →
    retryAux attempts b k rem =
      ((retryAux attempts b (k + j) (rem - j)).1,
       (List.range j).map (fun i => b * 2 ^ (k + i)) ++
         (retryAux attempts b (k + j) (rem - j)).2.1,
       j + (retryAux attempts b (k + j) (rem - j)).2.2)
  | 0, k, rem, _, _ => by simp
  | j + 1, k, rem, hlt, hfail => by
    obtain ⟨e, he, hn⟩ := hfail 0 (Nat.succ_pos j)
    rw [Nat.add_zero] at he
    match rem, hlt with
    | rr + 2, hlt =>
      rw [retryAux_retry b rr he hn]
      have hrec := retryAux_skip attempts b j (k + 1) (rr + 1)
        (by omega)
        (fun i hi => by
          obtain ⟨e', he', hn'⟩ := hfail (i + 1) (by omega)
          exact ⟨e', by rwa [show k + 1 + i = k + (i + 1) by omega], hn'⟩)
      rw [hrec]
      have hk : k + 1 + j = k + (j + 1) := by omega
      have hr : rr + 1 - j = rr + 2 - (j + 1) := by omega
      rw [hk, hr]
      simp only [Prod.mk.injEq]
      refine ⟨trivial, ?_, by omega⟩
      rw [← List.cons_append, range_map_pow_cons]

/-! ## C3 -/

/-- C3 (amended): for `m ≥ 1`, `retry_with_backoff(f, max_retries=m,
base_delay=b)` makes at most `m` attempts; the sleep performed after the
`k`-th failed attempt (0-indexed) — that is, the delay before attempt
`k+1` — is `b * 2^k`; if every attempt fails with a network-class error the
exception of the final attempt propagates unmodified after exactly `m`
attempts; the first successful attempt's value is returned with no further
attempts; and a non-network exception propagates immediately, with no
retry and no delay after it.  (The claim's "delay before attempt `k`
(0-indexed) is `b * 2^k`" is off by one: the delay before attempt `k+1` is
`b * 2^k`; see the counterexample.) -/
theorem c3_retry_with_backoff {α : Type} (attempts : Nat → Except PyExn α)
    (m : Nat) (b : ℚ) (hm : 1 ≤ m) :
    (retryWithBackoff attempts m b).2.2 ≤ m ∧
    (∀ (i : Nat) (h : i < (retryWithBackoff attempts m b).2.1.length),
        (retryWithBackoff attempts m b).2.1.get ⟨i, h⟩ = b * 2 ^ i) ∧
    (∀ e : Nat → PyExn,
        (∀ k, k < m → attempts k = .error (e k) ∧ (e k).isNet = true) →
        retryWithBackoff attempts m b =
          (.exn (e (m - 1)), (List.range (m - 1)).map (fun i => b * 2 ^ i), m)) ∧
    (∀ j v, j < m → attempts j = .ok v →
        (∀ i, i < j → ∃ e, attempts i = .error e ∧ e.isNet = true) →
        retryWithBackoff attempts m b =
          (.ok v, (List.range j).map (fun i => b * 2 ^ i), j + 1)) ∧
    (∀ j e, j < m → attempts j = .error e → e.isNet = false →
        (∀ i, i < j → ∃ e', attempts i = .error e' ∧ e'.isNet = true) →
        retryWithBackoff attempts m b =
          (.exn e, (List.range j).map (fun i => b * 2 ^ i), j + 1)) := by
  refine ⟨retryAux_attempts_le attempts b m 0, ?_, ?_, ?_, ?_⟩
  · intro i h
    obtain ⟨cnt, hc⟩ := retryAux_delays attempts b m 0
    unfold retryWithBackoff at *
    revert h
    rw [hc]
    intro h
    simp only [List.get_eq_getElem, List.getElem_map, List.getElem_range, Nat.zero_add]
  · intro e hfail
    unfold retryWithBackoff
    rw [retryAux_skip attempts b (m - 1) 0 m (by omega)
      (fun i hi => ⟨e i, by simpa using (hfail i (by omega)).1,
        (hfail i (by omega)).2⟩)]
    have h1 : m - (m - 1) = 1 := by omega
    obtain ⟨he, hn⟩ := hfail (m - 1) (by omega)
    rw [h1, retryAux_last b (by simpa using he) hn]
    simp only [Prod.mk.injEq, List.append_nil]
    refine ⟨trivial, List.map_congr_left (fun i _ => by rw [Nat.zero_add]), by omega⟩
  · intro j v hj hok hfail
    unfold retryWithBackoff
    rw [retryAux_skip attempts b j 0 m hj
      (fun i hi => by simpa using hfail i hi)]
    have hmj : m - j = (m - j - 1) + 1 := by omega
    rw [hmj, retryAux_ok b (m - j - 1) (by simpa using hok)]
    simp only [Prod.mk.injEq, List.append_nil]
    refine ⟨trivial, List.map_congr_left (fun i _ => by rw [Nat.zero_add]), trivial⟩
  · intro j e hj herr hn hfail
    unfold retryWithBackoff
    rw [retryAux_skip attempts b j 0 m hj
      (fun i hi => by simpa using hfail i hi)]
    have hmj : m - j = (m - j - 1) + 1 := by omega
    rw [hmj, retryAux_nonnet b (m - j - 1) (by simpa using herr) hn]
    simp only [Prod.mk.injEq, List.append_nil]
    refine ⟨trivial, List.map_congr_left (fun i _ => by rw [Nat.zero_add]), trivial⟩

/-- Witness for C3: with `m = 3`, `b = 1` and every attempt timing out, the
final timeout propagates after exactly 3 attempts, with sleeps `[1, 2]`. -/
theorem c3_retry_with_backoff_witness :
    retryWithBackoff (fun _ => (.error (.timeout "t") : Except PyExn Unit)) 3 1 =
      (.exn (.timeout "t"), (List.range 2).map (fun i => (1 : ℚ) * 2 ^ i), 3) := by
  have h := (c3_retry_with_backoff
      (fun _ => (.error (.timeout "t") : Except PyExn Unit)) 3 1 (by decide)).2.2.1
    (fun _ => .timeout "t") (fun k _ => ⟨rfl, rfl⟩)
  exact h

/-- Counterexample to C3 as stated: with `max_retries = 3`, `base_delay = 1`
and the first attempt failing with a timeout, the run makes 2 attempts and
performs exactly one sleep — the delay before attempt 1 — of length
`1 = b·2^0`, whereas the claim's formula ("the delay before attempt k
(0-indexed) is b·2^k") predicts `b·2^1 = 2` for the delay before
attempt 1. -/
theorem c3_counterexample :
    retryWithBackoff c3Attempts 3 1 = (.ok (), [1], 2) ∧
    ((1 : ℚ)) ≠ 1 * 2 ^ 1 := by
  constructor
  · show retryAux c3Attempts 1 0 3 = _
    conv_lhs => rw [show (3 : Nat) = 1 + 2 from rfl]
    rw [retryAux_retry 1 1 (show c3Attempts 0 = .error (.timeout "t") from rfl) rfl,
      retryAux_ok 1 1 (show c3Attempts (0 + 1) = .ok () from rfl)]
    norm_num
  · norm_num

/-! ## C1 -/

/-- C1: `extract_content` returns a string on every path and never raises:
its result is one of the three pre-network diagnostics, the empty string,
the diagnostic conversion of the exception produced by the (retried) fetch
phase, or the post-processed extracted text; and the conversion maps every
network-class or decode-class exception to an
`"Error extracting content: ..."` diagnostic and every other exception to
an `"Unexpected error: ..."` diagnostic. -/
theorem c1_extract_content_never_raises (env : FetchEnv) (url : String) :
    ((extractContent env url).1 = "Invalid URL format" ∨
     (extractContent env url).1 = "URL points to a non-HTML file" ∨
     (extractContent env url).1 =
       "Content from " ++ url ++ " (URL requires Brotli support for proper access)" ∨
     (extractContent env url).1 = "" ∨
     (∃ e, (retryWithBackoff (fun k => fetchUrlContent (env.attempts k)) 2 (1 / 2)).1 =
         .exn e ∧ (extractContent env url).1 = extractExnMsg e) ∨
     (∃ html, (retryWithBackoff (fun k => fetchUrlContent (env.attempts k)) 2 (1 / 2)).1 =
         .ok html ∧ html ≠ "" ∧
       (extractContent env url).1 =
         postprocess env.maxContentLength (selectText (env.soup html)))) ∧
    (∀ e : PyExn,
      ((e.isNet = true ∨ (∃ m, e = .decode m)) →
        extractExnMsg e = "Error extracting content: " ++ e.msg) ∧
      ((∃ m, e = .other m) →
        extractExnMsg e = "Unexpected error: " ++ e.msg)) := by
  constructor
  · by_cases h1 : url = "" ∨ ¬(strStartsWith url "http://" ∨ strStartsWith url "https://")
    · left
      unfold extractContent
      rw [if_pos h1]
    · unfold extractContent
      rw [if_neg h1]
      by_cases h2 : matchesNonHtmlExt url = true
      · rw [if_pos h2]
        right; left; rfl
      · rw [if_neg h2]
        by_cases h3 : isProblematicUrl env.brotliAvailable url = true
        · rw [if_pos h3]
          right; right; left; rfl
        · rw [if_neg h3]
          rcases hr : (retryWithBackoff (fun k => fetchUrlContent (env.attempts k)) 2 (1 / 2)).1
            with v | e
          · by_cases hv : v = ""
            · right; right; right; left
              simp only [hr]
              rw [if_pos hv]
            · right; right; right; right; right
              simp only [hr]
              exact ⟨v, rfl, hv, by rw [if_neg hv]⟩
          · right; right; right; right; left
            simp only [hr]
            exact ⟨e, rfl, rfl⟩
          · right; right; right; left
            simp only [hr]
  · intro e
    constructor
    · rintro (hn | ⟨m, rfl⟩)
      · cases e <;> simp_all [extractExnMsg, PyExn.isNet, PyExn.msg]
      · rfl
    · rintro ⟨m, rfl⟩
      rfl

/-- Witness for C1 at a concrete environment whose single fetch attempt
raises an unexpected (non-network) exception. -/
theorem c1_extract_content_never_raises_witness :
    ((extractContent ⟨fun _ => .raise (.other "boom"), fun _ => ⟨[], [], ""⟩, true, 5000⟩
        "http://example.org/a").1 = "Invalid URL format" ∨
     (extractContent ⟨fun _ => .raise (.other "boom"), fun _ => ⟨[], [], ""⟩, true, 5000⟩
        "http://example.org/a").1 = "URL points to a non-HTML file" ∨
     (extractContent ⟨fun _ => .raise (.other "boom"), fun _ => ⟨[], [], ""⟩, true, 5000⟩
        "http://example.org/a").1 =
       "Content from " ++ "http://example.org/a" ++
         " (URL requires Brotli support for proper access)" ∨
     (extractContent ⟨fun _ => .raise (.other "boom"), fun _ => ⟨[], [], ""⟩, true, 5000⟩
        "http://example.org/a").1 = "" ∨
     (∃ e, (retryWithBackoff
         (fun k => fetchUrlContent
           ((⟨fun _ => .raise (.other "boom"), fun _ => ⟨[], [], ""⟩, true, 5000⟩ :
             FetchEnv).attempts k)) 2 (1 / 2)).1 = .exn e ∧
       (extractContent ⟨fun _ => .raise (.other "boom"), fun _ => ⟨[], [], ""⟩, true, 5000⟩
          "http://example.org/a").1 = extractExnMsg e) ∨
     (∃ html, (retryWithBackoff
         (fun k => fetchUrlContent
           ((⟨fun _ => .raise (.other "boom"), fun _ => ⟨[], [], ""⟩, true, 5000⟩ :
             FetchEnv).attempts k)) 2 (1 / 2)).1 = .ok html ∧ html ≠ "" ∧
       (extractContent ⟨fun _ => .raise (.other "boom"), fun _ => ⟨[], [], ""⟩, true, 5000⟩
          "http://example.org/a").1 =
         postprocess 5000 (selectText (⟨[], [], ""⟩ : SoupView)))) := by
  exact (c1_extract_content_never_raises
    ⟨fun _ => .raise (.other "boom"), fun _ => ⟨[], [], ""⟩, true, 5000⟩
    "http://example.org/a").1

/-! ## C4 -/

/-- C4 (amended): the short-circuits of `extract_content` apply in order to
the raw URL string, each before any network activity: a URL not starting
with `http://`/`https://` (or empty) yields exactly `"Invalid URL format"`;
otherwise a URL string ending (case-insensitively) in a known non-HTML
extension yields exactly `"URL points to a non-HTML file"` with 0 HTTP
attempts; otherwise a URL whose lowercased text contains a block-listed
domain as a substring yields the diagnostic placeholder naming the URL,
with 0 HTTP attempts.  (The claim's "URL's path ends in a known non-HTML
extension" is amended to "URL string ends in ...": the regex
`\.(jpg|...)$` is applied to the whole URL, so a `.jpg` path followed by a
query string is not short-circuited; see the counterexample.) -/
theorem c4_shortcircuit_order (env : FetchEnv) (url : String) :
    ((url = "" ∨ ¬(strStartsWith url "http://" ∨ strStartsWith url "https://")) →
      extractContent env url = ("Invalid URL format", 0)) ∧
    (url ≠ "" → (strStartsWith url "http://" ∨ strStartsWith url "https://") →
      matchesNonHtmlExt url = true →
      extractContent env url = ("URL points to a non-HTML file", 0)) ∧
    (url ≠ "" → (strStartsWith url "http://" ∨ strStartsWith url "https://") →
      matchesNonHtmlExt url = false →
      isProblematicUrl env.brotliAvailable url = true →
      extractContent env url =
        ("Content from " ++ url ++ " (URL requires Brotli support for proper access)",
         0)) := by
  refine ⟨fun h1 => ?_, fun hne hpre hext => ?_, fun hne hpre hext hprob => ?_⟩
  · unfold extractContent
    rw [if_pos h1]
  · unfold extractContent
    rw [if_neg (by push_neg; exact ⟨hne, hpre⟩), if_pos hext]
  · unfold extractContent
    rw [if_neg (by push_neg; exact ⟨hne, hpre⟩), if_neg (by simp [hext]), if_pos hprob]

/-- Witness for C4 (amended) at concrete URLs: an `ftp:` URL, a URL ending
in `.JPG`, and a `facebook.com` URL each take the corresponding
short-circuit with no HTTP attempt. -/
theorem c4_shortcircuit_order_witness :
    extractContent okFetchEnv "ftp://example.org/x" = ("Invalid URL format", 0) ∧
    extractContent okFetchEnv "http://example.org/photo.JPG" =
      ("URL points to a non-HTML file", 0) ∧
    extractContent okFetchEnv "http://m.facebook.com/page" =
      ("Content from " ++ "http://m.facebook.com/page" ++
        " (URL requires Brotli support for proper access)", 0) := by
  refine ⟨?_, ?_, ?_⟩
  · exact (c4_shortcircuit_order okFetchEnv "ftp://example.org/x").1
      (Or.inr (by decide))
  · exact (c4_shortcircuit_order okFetchEnv "http://example.org/photo.JPG").2.1
      (by decide) (by decide) (by decide)
  · exact (c4_shortcircuit_order okFetchEnv "http://m.facebook.com/page").2.2
      (by decide) (by decide) (by decide) (by decide)

/-- Counterexample to C4 as stated: the URL
`http://example.org/img.jpg?size=large` has path `/img.jpg`, which ends in
the non-HTML extension `.jpg`, so the claim requires the return value
`"URL points to a non-HTML file"` with no network call; but the code
applies the extension regex to the whole URL string (which ends in
`large`), does not short-circuit, and issues an HTTP attempt, returning the
extracted page text instead. -/
theorem c4_counterexample :
    (extractContent okFetchEnv c4Url).1 ≠ "URL points to a non-HTML file" ∧
    (extractContent okFetchEnv c4Url).2 = 1 := by
  constructor
  · decide
  · decide

/-! ## Lemmas about whitespace collapsing (for C6) -/

theorem collapseWsAux_ws_true {c : Char} (h : isPyWs c = true) (l : List Char) :
    collapseWsAux true (c :: l) = collapseWsAux true l := by
  rw [collapseWsAux.eq_2]
  simp only [h, if_true]

theorem collapseWsAux_ws_false {c : Char} (h : isPyWs c = true) (l : List Char) :
    collapseWsAux false (c :: l) = ' ' :: collapseWsAux true l := by
  rw [collapseWsAux.eq_2]
  simp only [h, if_true, Bool.false_eq_true, if_false]

theorem collapseWsAux_nonws {c : Char} (h : isPyWs c = false) (prev : Bool)
    (l : List Char) : collapseWsAux prev (c :: l) = c :: collapseWsAux false l := by
  rw [collapseWsAux.eq_2]
  simp only [h, Bool.false_eq_true, if_false]

theorem collapseWsAux_all_ok :
    ∀ (l : List Char) (prev : Bool), ∀ c ∈ collapseWsAux prev l, okWsChar c = true
  | [], _ => by intro c hc; cases hc
  | a :: rest, prev => by
    intro c hc
    match ha : isPyWs a with
    | true =>
      cases prev with
      | true =>
        rw [collapseWsAux_ws_true ha] at hc
        exact collapseWsAux_all_ok rest true c hc
      | false =>
        rw [collapseWsAux_ws_false ha] at hc
        rcases List.mem_cons.mp hc with rfl | hc'
        · rfl
        · exact collapseWsAux_all_ok rest true c hc'
    | false =>
      rw [collapseWsAux_nonws ha prev] at hc
      rcases List.mem_cons.mp hc with rfl | hc'
      · simp [okWsChar, ha]
      · exact collapseWsAux_all_ok rest false c hc'

theorem collapseWsAux_head_not_ws :
    ∀ (l : List Char) (c : Char) (cs : List Char),
      collapseWsAux true l = c :: cs → isPyWs c = false
  | [], c, cs => by intro h; cases h
  | a :: rest, c, cs => by
    intro h
    match ha : isPyWs a with
    | true =>
      rw [collapseWsAux_ws_true ha] at h
      exact collapseWsAux_head_not_ws rest c cs h
    | false =>
      rw [collapseWsAux_nonws ha true] at h
      injection h with h1 _
      rw [← h1]
      exact ha

theorem collapseWsAux_chain :
    ∀ (l : List Char) (prev : Bool), List.Chain' noWsPair (collapseWsAux prev l)
  | [], _ => List.chain'_nil
  | a :: rest, prev => by
    match ha : isPyWs a with
    | true =>
      cases prev with
      | true =>
        rw [collapseWsAux_ws_true ha]
        exact collapseWsAux_chain rest true
      | false =>
        rw [collapseWsAux_ws_false ha]
        refine List.chain'_cons'.mpr ⟨?_, collapseWsAux_chain rest true⟩
        intro y hy
        have hyws := collapseWsAux_head_not_ws rest y _ (List.eq_cons_of_mem_head? hy)
        exact fun hcon => by rw [hyws] at hcon; exact Bool.false_ne_true hcon.2
    | false =>
      rw [collapseWsAux_nonws ha prev]
      refine List.chain'_cons'.mpr ⟨?_, collapseWsAux_chain rest false⟩
      intro y hy
      exact fun hcon => by rw [ha] at hcon; exact Bool.false_ne_true hcon.1

theorem noWsPair_dot_right (x : Char) : noWsPair x '.' :=
  fun hcon => by
    have : isPyWs '.' = true := hcon.2
    simp [isPyWs] at this

theorem chain_dots : List.Chain' noWsPair ['.', '.', '.'] := by
  refine List.chain'_cons'.mpr ⟨?_, List.chain'_cons'.mpr ⟨?_, List.chain'_singleton _⟩⟩ <;>
    exact fun y hy => by
      have hy' : '.' = y := by simpa using hy
      rw [← hy']
      exact noWsPair_dot_right '.'

theorem chain_take' {R : Char → Char → Prop} :
    ∀ (l : List Char) (n : Nat), List.Chain' R l → List.Chain' R (l.take n)
  | [], n, _ => by rw [List.take_nil]; exact List.chain'_nil
  | _ :: _, 0, _ => List.chain'_nil
  | a :: t, n + 1, h => by
    rw [List.take_succ_cons]
    have hparts := List.chain'_cons'.mp h
    refine List.chain'_cons'.mpr ⟨?_, chain_take' t n hparts.2⟩
    intro y hy
    have hcons := List.eq_cons_of_mem_head? hy
    have hyt : y ∈ t.head? := by
      cases t with
      | nil =>
        rw [List.take_nil] at hcons
        simp at hcons
      | cons b t' =>
        cases n with
        | zero =>
          rw [List.take_zero] at hcons
          simp at hcons
        | succ m =>
          rw [List.take_succ_cons] at hcons
          injection hcons with h1 _
    exact hparts.1 y hyt

theorem chain_take {l : List Char} (h : List.Chain' noWsPair l) (n : Nat) :
    List.Chain' noWsPair (l.take n) :=
  chain_take' l n h

theorem chain_append_dots {l : List Char} (h : List.Chain' noWsPair l) :
    List.Chain' noWsPair (l ++ ['.', '.', '.']) := by
  refine List.chain'_append.mpr ⟨h, chain_dots, ?_⟩
  intro x _ y hy
  have hy' : '.' = y := by simpa using hy
  rw [← hy']
  exact noWsPair_dot_right x

/-- Unfolded form of the post-processing step. -/
theorem postprocess_eq (maxLen : Nat) (s : String) :
    postprocess maxLen s =
      ⟨(collapseWs s).data.take maxLen⟩ ++
        (if (collapseWs s).length > maxLen then "..." else "") := rfl

theorem dots_data : ("..." : String).data = ['.', '.', '.'] := rfl

theorem empty_data : ("" : String).data = [] := rfl

/-! ## C6 -/

/-- C6: on the HTML path (valid non-blocked URL, HTTP 200 with an HTML
content type, non-empty body), `extract_content` returns exactly the
post-processing of the heuristically selected text; that string has all
whitespace runs collapsed to single spaces (every whitespace character in
it is a plain space and no two adjacent characters are whitespace), its
length is at most `MAX_CONTENT_LENGTH + 3` (the length of the `"..."`
marker), and the marker variant is produced exactly when the collapsed
text exceeds `MAX_CONTENT_LENGTH`. -/
theorem c6_extractor_output_bounded (env : FetchEnv) (url ct body : String)
    (h1 : ¬(url = "" ∨ ¬(strStartsWith url "http://" ∨ strStartsWith url "https://")))
    (h2 : matchesNonHtmlExt url = false)
    (h3 : isProblematicUrl env.brotliAvailable url = false)
    (h4 : env.attempts 0 = .resp 200 ct body)
    (h5 : strContains (lowerStr ct) "text/html" = true)
    (h6 : body ≠ "") :
    (extractContent env url).1 =
      postprocess env.maxContentLength (selectText (env.soup body)) ∧
    (extractContent env url).1.length ≤ env.maxContentLength + 3 ∧
    (∀ c ∈ (extractContent env url).1.data, okWsChar c = true) ∧
    List.Chain' noWsPair (extractContent env url).1.data ∧
    (if (collapseWs (selectText (env.soup body))).length > env.maxContentLength then
        (extractContent env url).1 =
          ⟨(collapseWs (selectText (env.soup body))).data.take env.maxContentLength⟩ ++ "..."
      else (extractContent env url).1 = collapseWs (selectText (env.soup body))) := by
  have hfetch : fetchUrlContent (env.attempts 0) = .ok body := by
    rw [h4]
    show (if (200 : Nat) ≠ 200 then Except.ok ""
      else if !strContains (lowerStr ct) "text/html" then Except.ok ""
      else Except.ok body) = Except.ok body
    rw [if_neg (by omega), if_neg (by rw [h5]; simp)]
  have hretry :
      retryWithBackoff (fun k => fetchUrlContent (env.attempts k)) 2 (1 / 2) =
        (.ok body, [], 1) :=
    retryAux_ok (1 / 2) 1 hfetch
  have hmain : (extractContent env url).1 =
      postprocess env.maxContentLength (selectText (env.soup body)) := by
    unfold extractContent
    rw [if_neg h1, if_neg (by rw [h2]; exact Bool.false_ne_true),
      if_neg (by rw [h3]; exact Bool.false_ne_true)]
    simp only [hretry]
    rw [if_neg h6]
  have hlen' : ∀ n (l : List Char), (l.take n).length ≤ n :=
    fun n l => by simp
  refine ⟨hmain, ?_, ?_, ?_, ?_⟩
  · rw [hmain, postprocess_eq]
    by_cases hlen : (collapseWs (selectText (env.soup body))).length > env.maxContentLength
    · rw [if_pos hlen, strLength_append]
      have h := hlen' env.maxContentLength (collapseWs (selectText (env.soup body))).data
      show ((collapseWs (selectText (env.soup body))).data.take env.maxContentLength).length
          + 3 ≤ env.maxContentLength + 3
      omega
    · rw [if_neg hlen, strAppend_empty]
      have h := hlen' env.maxContentLength (collapseWs (selectText (env.soup body))).data
      show ((collapseWs (selectText (env.soup body))).data.take env.maxContentLength).length
          ≤ env.maxContentLength + 3
      omega
  · rw [hmain, postprocess_eq]
    intro c hc
    rw [strAppend_data] at hc
    rcases List.mem_append.mp hc with hc' | hc'
    · exact collapseWsAux_all_ok _ false c (List.mem_of_mem_take hc')
    · split at hc'
      · rw [dots_data] at hc'
        have hcd : c = '.' := by simpa using hc'
        subst hcd
        rfl
      · rw [empty_data] at hc'
        cases hc'
  · rw [hmain, postprocess_eq, strAppend_data]
    split
    · rw [dots_data]
      exact chain_append_dots (chain_take (collapseWsAux_chain _ false) _)
    · rw [empty_data, List.append_nil]
      exact chain_take (collapseWsAux_chain _ false) _
  · by_cases hlen : (collapseWs (selectText (env.soup body))).length > env.maxContentLength
    · rw [if_pos hlen, hmain, postprocess_eq, if_pos hlen]
    · rw [if_neg hlen, hmain, postprocess_eq, if_neg hlen, strAppend_empty]
      apply strData_ext
      show (collapseWs (selectText (env.soup body))).data.take env.maxContentLength =
        (collapseWs (selectText (env.soup body))).data
      apply List.take_of_length_le
      rw [strLength_data] at hlen
      omega

/-- Witness for C6 at a concrete environment: the extractor output on a
fetched page respects the length bound with `MAX_CONTENT_LENGTH = 5000`. -/
theorem c6_extractor_output_bounded_witness :
    (extractContent okFetchEnv "http://example.org/a").1 =
      postprocess 5000 (selectText (okFetchEnv.soup "<p>x</p>")) ∧
    (extractContent okFetchEnv "http://example.org/a").1.length ≤ 5000 + 3 := by
  have h := c6_extractor_output_bounded okFetchEnv "http://example.org/a"
    "text/html; charset=utf-8" "<p>x</p>"
    (by decide) (by decide) (by decide) rfl (by decide) (by decide)
  exact ⟨h.1, h.2.1⟩

/-! ## Lemmas about the aggregation pipeline -/

theorem cacheGet_nil (k : String) : cacheGet [] k = none := rfl

theorem cacheGet_cons_self (k : String) (v : ℚ × String) (rest : Cache) :
    cacheGet ((k, v) :: rest) k = some v := by
  unfold cacheGet
  rw [if_pos rfl]

theorem cachePut_nil (k : String) (now : ℚ) (v : String) (ttl : ℚ) :
    cachePut [] k now v ttl = [(k, now, v)] := rfl

theorem sgCalls_nil : sgCalls [] = [] := rfl

theorem sgCalls_cons_sg (q : String) (n : Int) (att : Nat) (rest : List Event) :
    sgCalls (.sgCall q n att :: rest) = (q, n) :: sgCalls rest := rfl

theorem sgCalls_cons_pf (url : String) (att : Nat) (rest : List Event) :
    sgCalls (.pageFetch url att :: rest) = sgCalls rest := rfl

theorem sgCalls_append (t1 t2 : List Event) :
    sgCalls (t1 ++ t2) = sgCalls t1 ++ sgCalls t2 :=
  List.filterMap_append t1 t2 _

theorem sgCalls_pageFetches (hits : List Hit) (f : Hit → Nat) :
    sgCalls (hits.map (fun h => Event.pageFetch h.url (f h))) = [] := by
  induction hits with
  | nil => rfl
  | cons h t ih =>
    rw [List.map_cons, sgCalls_cons_pf]
    exact ih

/-- The value of `search_and_extract` when the provider yields no hits. -/
theorem sae_no_hits (sgRun : World → String → Int → Except PyExn (List Hit) × Nat)
    (w : World) (q : String) (n : Int) (h : (sgRun w q n).1 = .ok []) :
    searchAndExtract sgRun w q n = (.ok [], [.sgCall q n (sgRun w q n).2]) := by
  unfold searchAndExtract
  simp only [h, List.isEmpty_nil, if_true]

/-- The value of `search_and_extract` when the provider yields hits: the enriched hits
with empty extracted content — and only those — are dropped. -/
theorem sae_with_hits (sgRun : World → String → Int → Except PyExn (List Hit) × Nat)
    (w : World) (q : String) (n : Int) (hits : List Hit)
    (h : (sgRun w q n).1 = .ok hits) (hne : hits ≠ []) :
    searchAndExtract sgRun w q n =
      (.ok ((hits.map (enrichHit w)).filter (fun r => r.content ≠ "")),
       .sgCall q n (sgRun w q n).2 ::
         hits.map (fun h => .pageFetch h.url (extractContent (w.fetchEnv h.url) h.url).2)) := by
  unfold searchAndExtract
  simp only [h]
  rw [if_neg (by simpa [List.isEmpty_iff] using hne)]

/-- The trace of a `search_and_extract` call always starts with (and
records exactly one) `search_google` invocation for its own arguments. -/
theorem sae_trace_head (sgRun : World → String → Int → Except PyExn (List Hit) × Nat)
    (w : World) (q : String) (n : Int) :
    ∃ att rest, (searchAndExtract sgRun w q n).2 = .sgCall q n att :: rest := by
  unfold searchAndExtract
  rcases h : (sgRun w q n).1 with e | hits
  · simp only [h]
    exact ⟨(sgRun w q n).2, [], rfl⟩
  · simp only [h]
    split
    · exact ⟨(sgRun w q n).2, [], rfl⟩
    · exact ⟨(sgRun w q n).2, _, rfl⟩

/-- The `search_google` invocations of one `search_and_extract` call are
exactly one, with its own arguments. -/
theorem sgCalls_sae (sgRun : World → String → Int → Except PyExn (List Hit) × Nat)
    (w : World) (q : String) (n : Int) :
    sgCalls (searchAndExtract sgRun w q n).2 = [(q, n)] := by
  unfold searchAndExtract
  rcases h : (sgRun w q n).1 with e | hits
  · simp only [h]
    rfl
  · simp only [h]
    split
    · rfl
    · show sgCalls (Event.sgCall q n (sgRun w q n).2 ::
        hits.map (fun h => .pageFetch h.url (extractContent (w.fetchEnv h.url) h.url).2)) = _
      rw [sgCalls_cons_sg,
        sgCalls_pageFetches hits (fun h => (extractContent (w.fetchEnv h.url) h.url).2)]

/-- The formatted document built from a non-empty result list. -/
def formattedDoc (res : List EnrichedHit) (es : String) : String :=
  formatResults res ++ "\nSearch completed in " ++ es ++ " seconds."

/-- The core of `search_information` when results are found: format, cache with
the completion timestamp, and return, leaving the trace of the single
`search_and_extract` call. -/
theorem searchInfoCore_formatted
    (sgRun : World → String → Int → Except PyExn (List Hit) × Nat)
    (w : World) (cache : Cache) (key : String) (tEnd ttl : ℚ) (es q : String) (n : Int)
    (res : List EnrichedHit) (tr : List Event)
    (hsae : searchAndExtract sgRun w q n = (.ok res, tr)) (hne : res ≠ []) :
    searchInfoCore sgRun w cache key tEnd ttl es q n =
      (formattedDoc res es, cachePut cache key tEnd (formattedDoc res es) ttl, tr) := by
  unfold searchInfoCore
  simp only [hsae]
  have hemp : ¬(res.isEmpty = true) := by simpa [List.isEmpty_iff] using hne
  simp only [if_neg hemp]
  rfl

/-- The value of `search_information` on a cache miss with results found. -/
theorem searchInfo_formatted
    (sgRun : World → String → Int → Except PyExn (List Hit) × Nat)
    (w : World) (cache : Cache) (tStart tEnd ttl : ℚ) (es q : String) (n : Int)
    (res : List EnrichedHit) (tr : List Event)
    (hmiss : cacheGet cache (q ++ "_" ++ toString n) = none)
    (hsae : searchAndExtract sgRun w q n = (.ok res, tr)) (hne : res ≠ []) :
    searchInformationGen sgRun w cache tStart tEnd ttl es q n =
      (formattedDoc res es,
       cachePut cache (q ++ "_" ++ toString n) tEnd (formattedDoc res es) ttl,
       tr) := by
  unfold searchInformationGen
  simp only [hmiss]
  exact searchInfoCore_formatted sgRun w cache _ tEnd ttl es q n res tr hsae hne

/-! ## C2 -/

/-- C2: if a `search_information` call completes at time `t1` having found
results (so it stores its formatted document in the result cache), then a
second call with identical arguments whose cache check happens at `t2` with
`t2 - t1 < CACHE_TTL` performs no `search_google` invocation at all (its
network trace is empty) and returns the first call's document; while if
`t2 - t1 ≥ CACHE_TTL` the second call invokes `search_google` again (its
trace starts with a provider invocation for `(q, n)`). -/
theorem c2_cache_ttl (w : World) (q : String) (n : Int)
    (t0 t1 t2 t3 ttl : ℚ) (e1 e2 : String)
    (res : List EnrichedHit) (tr : List Event)
    (hsae : searchAndExtract searchGoogleEngine w q n = (.ok res, tr))
    (hres : res ≠ []) :
    (t2 - t1 < ttl →
      sgCalls (searchInformationEngine w
        (searchInformationEngine w [] t0 t1 ttl e1 q n).2.1 t2 t3 ttl e2 q n).2.2 = [] ∧
      (searchInformationEngine w
        (searchInformationEngine w [] t0 t1 ttl e1 q n).2.1 t2 t3 ttl e2 q n).1 =
        (searchInformationEngine w [] t0 t1 ttl e1 q n).1) ∧
    (ttl ≤ t2 - t1 →
      ∃ att rest, (searchInformationEngine w
        (searchInformationEngine w [] t0 t1 ttl e1 q n).2.1 t2 t3 ttl e2 q n).2.2 =
          .sgCall q n att :: rest) := by
  have h1 : searchInformationEngine w [] t0 t1 ttl e1 q n =
      (formattedDoc res e1,
       cachePut [] (q ++ "_" ++ toString n) t1 (formattedDoc res e1) ttl, tr) :=
    searchInfo_formatted searchGoogleEngine w [] t0 t1 ttl e1 q n res tr rfl hsae hres
  rw [h1, cachePut_nil]
  constructor
  · intro hfresh
    have h2 : searchInformationEngine w
        [(q ++ "_" ++ toString n, t1, formattedDoc res e1)] t2 t3 ttl e2 q n =
        (formattedDoc res e1,
         [(q ++ "_" ++ toString n, t1, formattedDoc res e1)], []) := by
      unfold searchInformationEngine searchInformationGen
      simp only [cacheGet_cons_self]
      rw [if_pos (by exact hfresh)]
    rw [h2]
    exact ⟨rfl, rfl⟩
  · intro hstale
    have h2 : searchInformationEngine w
        [(q ++ "_" ++ toString n, t1, formattedDoc res e1)] t2 t3 ttl e2 q n =
        (formattedDoc res e2,
         cachePut [(q ++ "_" ++ toString n, t1, formattedDoc res e1)]
           (q ++ "_" ++ toString n) t3 (formattedDoc res e2) ttl,
         tr) := by
      unfold searchInformationEngine searchInformationGen
      simp only [cacheGet_cons_self]
      rw [if_neg (by exact not_lt.mpr hstale)]
      exact searchInfoCore_formatted searchGoogleEngine w _ _ t3 ttl e2 q n res tr hsae hres
    rw [h2]
    obtain ⟨att, rest, hhd⟩ := sae_trace_head searchGoogleEngine w q n
    rw [hsae] at hhd
    exact ⟨att, rest, hhd⟩

/-- Witness for C2 at a concrete world: one hit with non-empty content,
first call at times (0, 1), second call at times (2, 3) with TTL 3600. -/
theorem c2_cache_ttl_witness :
    sgCalls (searchInformationEngine okWorld
      (searchInformationEngine okWorld [] 0 1 3600 "0.42" "rust" 5).2.1
      2 3 3600 "0.77" "rust" 5).2.2 = [] ∧
    (searchInformationEngine okWorld
      (searchInformationEngine okWorld [] 0 1 3600 "0.42" "rust" 5).2.1
      2 3 3600 "0.77" "rust" 5).1 =
      (searchInformationEngine okWorld [] 0 1 3600 "0.42" "rust" 5).1 := by
  have h := c2_cache_ttl okWorld "rust" 5 0 1 2 3 3600 "0.42" "0.77"
    [⟨"T", "http://e.org/p", "S", (extractContent (okWorld.fetchEnv "http://e.org/p")
      "http://e.org/p").1⟩]
    [.sgCall "rust" 5 1, .pageFetch "http://e.org/p" 1]
    (by rfl) (by decide)
  exact h.1 (by norm_num)

/-! ## C5 -/

/-- C5 (amended): when the Search Provider returns no hits for the original
query, `search_information` retries the provider exactly once with the
simplified query — but only when the simplified query is non-empty AND
differs from the original; when the simplified query is empty (as for
`"!!!???"`) or equal to the original, no retry happens; in all cases where
the retry also yields nothing (or is skipped), the returned string is the
fixed no-results message.  (The claim's "retries ... whenever it differs
from the original" omits the non-emptiness condition; see the
counterexample at `"!!!???"`.) -/
theorem c5_simplified_query_fallback (w : World) (q : String) (n : Int)
    (cache : Cache) (t0 t1 ttl : ℚ) (es : String)
    (hmiss : cacheGet cache (q ++ "_" ++ toString n) = none)
    (hnohits : (searchGoogleEngine w q n).1 = .ok []) :
    ((simplifyQuery q = "" ∨ simplifyQuery q = q) →
      sgCalls (searchInformationEngine w cache t0 t1 ttl es q n).2.2 = [(q, n)] ∧
      (searchInformationEngine w cache t0 t1 ttl es q n).1 = noResultsMsg) ∧
    (simplifyQuery q ≠ "" → simplifyQuery q ≠ q →
      sgCalls (searchInformationEngine w cache t0 t1 ttl es q n).2.2 =
        [(q, n), (simplifyQuery q, n)] ∧
      ((searchAndExtract searchGoogleEngine w (simplifyQuery q) n).1 = .ok [] →
        (searchInformationEngine w cache t0 t1 ttl es q n).1 = noResultsMsg)) := by
  have hsae1 := sae_no_hits searchGoogleEngine w q n hnohits
  constructor
  · intro hdegenerate
    have h : searchInformationEngine w cache t0 t1 ttl es q n =
        (noResultsMsg, cache, [.sgCall q n (searchGoogleEngine w q n).2]) := by
      unfold searchInformationEngine searchInformationGen
      simp only [hmiss]
      unfold searchInfoCore
      simp only [hsae1]
      rw [if_pos (show ([] : List EnrichedHit).isEmpty = true from rfl)]
      rw [if_neg (by
        rcases hdegenerate with h' | h'
        · exact fun hcon => hcon.1 h'
        · exact fun hcon => hcon.2 h')]
      rw [if_pos (show ([] : List EnrichedHit).isEmpty = true from rfl)]
    rw [h]
    exact ⟨rfl, rfl⟩
  · intro hsq1 hsq2
    rcases h2 : searchAndExtract searchGoogleEngine w (simplifyQuery q) n with ⟨r2, tr2⟩
    have htr2 : sgCalls tr2 = [(simplifyQuery q, n)] := by
      have := sgCalls_sae searchGoogleEngine w (simplifyQuery q) n
      rw [h2] at this
      exact this
    have hcond : simplifyQuery q ≠ "" ∧ simplifyQuery q ≠ q := ⟨hsq1, hsq2⟩
    cases r2 with
    | error e =>
      have h : searchInformationEngine w cache t0 t1 ttl es q n =
          (searchInfoExnMsg e, cache,
           [.sgCall q n (searchGoogleEngine w q n).2] ++ tr2) := by
        unfold searchInformationEngine searchInformationGen
        simp only [hmiss]
        unfold searchInfoCore
        simp only [hsae1]
        rw [if_pos (show ([] : List EnrichedHit).isEmpty = true from rfl), if_pos hcond]
        simp only [h2]
      rw [h]
      refine ⟨?_, ?_⟩
      · rw [sgCalls_append, htr2]
        rfl
      · intro h2ok
        exact absurd h2ok (by simp)
    | ok res2 =>
      have h : searchInformationEngine w cache t0 t1 ttl es q n =
          (if res2.isEmpty then noResultsMsg else formattedDoc res2 es,
           if res2.isEmpty then cache
             else cachePut cache (q ++ "_" ++ toString n) t1 (formattedDoc res2 es) ttl,
           [.sgCall q n (searchGoogleEngine w q n).2] ++ tr2) := by
        unfold searchInformationEngine searchInformationGen
        simp only [hmiss]
        unfold searchInfoCore
        simp only [hsae1]
        rw [if_pos (show ([] : List EnrichedHit).isEmpty = true from rfl), if_pos hcond]
        simp only [h2]
        by_cases hemp : res2.isEmpty = true
        · rw [if_pos hemp, if_pos hemp, if_pos hemp]
        · rw [if_neg hemp, if_neg hemp, if_neg hemp]
          rfl
      rw [h]
      refine ⟨?_, ?_⟩
      · rw [sgCalls_append, htr2]
        rfl
      · intro h2ok
        have hres2 : res2 = [] := by simpa using h2ok
        subst hres2
        rfl

/-- Witness for C5 (amended): with a provider returning zero hits for
`"what is rust"` (whose simplified query `"rust"` is non-empty and
different), the provider is invoked exactly twice — original then
simplified — and the result is the no-results message; and for the query
`"rust"` (simplified query equal to the original) it is invoked exactly
once. -/
theorem c5_simplified_query_fallback_witness :
    (sgCalls (searchInformationEngine noHitsWorld [] 0 1 3600 "0.10"
        "what is rust" 5).2.2 = [("what is rust", 5), ("rust", 5)] ∧
      (searchInformationEngine noHitsWorld [] 0 1 3600 "0.10" "what is rust" 5).1 =
        noResultsMsg) ∧
    sgCalls (searchInformationEngine noHitsWorld [] 0 1 3600 "0.10" "rust" 5).2.2 =
      [("rust", 5)] := by
  have hA := (c5_simplified_query_fallback noHitsWorld "what is rust" 5 [] 0 1 3600 "0.10"
    rfl rfl).2 (by decide) (by decide)
  have hB := (c5_simplified_query_fallback noHitsWorld "rust" 5 [] 0 1 3600 "0.10"
    rfl rfl).1 (Or.inr (by decide))
  refine ⟨⟨?_, hA.2 (by rfl)⟩, hB.1⟩
  have := hA.1
  rwa [show simplifyQuery "what is rust" = "rust" from by decide] at this

/-- Counterexample to C5 as stated: for the query `"!!!???"` the provider
returns zero hits and the simplified query (`""`, after stripping
punctuation) differs from the original, so the claim requires a second
provider call with the simplified query; but the code skips the retry
because the simplified query is empty: exactly one provider invocation
happens, and the result is the fixed no-results message. -/
theorem c5_counterexample :
    simplifyQuery "!!!???" = "" ∧
    ("" : String) ≠ "!!!???" ∧
    (searchInformationEngine noHitsWorld [] 0 1 3600 "0.10" "!!!???" 5).2.2 =
      [.sgCall "!!!???" 5 1] ∧
    (searchInformationEngine noHitsWorld [] 0 1 3600 "0.10" "!!!???" 5).1 =
      noResultsMsg := by
  refine ⟨by decide, by decide, by decide, by decide⟩

/-! ## C10 -/

theorem mem_enumFrom_of_mem {α : Type} (a : α) :
    ∀ (l : List α) (k : Nat), a ∈ l → ∃ i, (i, a) ∈ l.enumFrom k
  | [], _, h => absurd h (List.not_mem_nil a)
  | b :: t, k, h => by
    rcases List.mem_cons.mp h with rfl | h'
    · exact ⟨k, List.mem_cons_self _ _⟩
    · obtain ⟨i, hi⟩ := mem_enumFrom_of_mem a t (k + 1) h'
      exact ⟨i, List.mem_cons_of_mem _ hi⟩

/-- Every kept result's block appears verbatim in the formatted output. -/
theorem formatResults_mem_decomp (res : List EnrichedHit) (r : EnrichedHit)
    (h : r ∈ res) (hc : r.content ≠ "") :
    ∃ i pre post, formatResults res = pre ++ formatBlock i r ++ post := by
  obtain ⟨i, hi⟩ := mem_enumFrom_of_mem r res 1 h
  have hb : formatBlock i r ∈ (res.enumFrom 1).filterMap
      (fun p => if p.2.content = "" then none else some (formatBlock p.1 p.2)) :=
    List.mem_filterMap.mpr ⟨(i, r), hi, by rw [if_neg hc]⟩
  obtain ⟨pre, post, hj⟩ := strJoin_mem_decomp "\n" _ _ hb
  exact ⟨i, pre, post, hj⟩

/-- C10: hits whose content fetch yields a non-empty diagnostic string are
not dropped — the filter of `search_and_extract` removes exactly the hits
with empty extracted content — and the diagnostic text appears verbatim as
the `CONTENT` of a numbered `SOURCE` block of the document returned by
`search_information`. -/
theorem c10_diagnostics_kept (w : World) (q : String) (n : Int)
    (t0 t1 ttl : ℚ) (es : String) (hits : List Hit) (h : Hit) (d : String)
    (hsg : (searchGoogleEngine w q n).1 = .ok hits)
    (hmem : h ∈ hits)
    (hd : (extractContent (w.fetchEnv h.url) h.url).1 = d)
    (hdne : d ≠ "") :
    (searchAndExtract searchGoogleEngine w q n).1 =
      .ok ((hits.map (enrichHit w)).filter (fun r => r.content ≠ "")) ∧
    (∃ i pre post, (searchInformationEngine w [] t0 t1 ttl es q n).1 =
      pre ++ formatBlock i ⟨h.title, h.url, h.snippet, d⟩ ++ post) := by
  have hne : hits ≠ [] := List.ne_nil_of_mem hmem
  have hsae := sae_with_hits searchGoogleEngine w q n hits hsg hne
  have heq : enrichHit w h = ⟨h.title, h.url, h.snippet, d⟩ := by
    unfold enrichHit
    rw [hd]
  constructor
  · rw [hsae]
  · have henr : enrichHit w h ∈ (hits.map (enrichHit w)).filter
        (fun r => r.content ≠ "") := by
      refine List.mem_filter.mpr ⟨List.mem_map_of_mem _ hmem, ?_⟩
      rw [show (enrichHit w h).content = d from by rw [heq]]
      exact decide_eq_true hdne
    have hres_ne : (hits.map (enrichHit w)).filter (fun r => r.content ≠ "") ≠ [] :=
      List.ne_nil_of_mem henr
    have hfmt := searchInfo_formatted searchGoogleEngine w [] t0 t1 ttl es q n
      ((hits.map (enrichHit w)).filter (fun r => r.content ≠ "")) _ rfl hsae hres_ne
    unfold searchInformationEngine
    rw [hfmt]
    obtain ⟨i, pre, post, hdec⟩ := formatResults_mem_decomp
      ((hits.map (enrichHit w)).filter (fun r => r.content ≠ "")) (enrichHit w h)
      henr (by rw [show (enrichHit w h).content = d from by rw [heq]]; exact hdne)
    rw [heq] at hdec
    refine ⟨i, ?_⟩
    show ∃ pre post, formattedDoc _ es = pre ++ _ ++ post
    unfold formattedDoc
    exact decomp_append_right (decomp_append_right (decomp_append_right
      ⟨pre, post, hdec⟩ _) _) _

/-- Witness for C10: a hit whose URL is invalid yields the diagnostic
`"Invalid URL format"`, which survives filtering and appears as the
`CONTENT` of a `SOURCE` block. -/
theorem c10_diagnostics_kept_witness :
    ∃ i pre post, (searchInformationEngine badUrlWorld [] 0 1 3600 "0.20" "rust" 5).1 =
      pre ++ formatBlock i ⟨"Bad", "notaurl", "Snip", "Invalid URL format"⟩ ++ post :=
  (c10_diagnostics_kept badUrlWorld "rust" 5 0 1 3600 "0.20"
    [⟨"Bad", "notaurl", "Snip"⟩] ⟨"Bad", "notaurl", "Snip"⟩ "Invalid URL format"
    rfl (by decide) (by decide) (by decide)).2

/-! ## C9 -/

/-- C9 (amended): the two pipeline copies are observationally equivalent —
equal returned string, equal cache evolution, and equal network-event
trace — for every world in which no provider HTTP request fails with a
network-class exception on its first attempt.  (They are not equivalent in
general: `search_utils.search_google` wraps its request in
`retry_with_backoff(max_retries=2)` while `engine.search_google` issues a
single attempt; see the counterexample.) -/
theorem c9_pipelines_equal (w : World)
    (hfirst : ∀ (q' : String) (n' : Int) (e : PyExn),
      makeSearchRequest (w.sg q' n' 0) = .error e → e.isNet = false)
    (cache : Cache) (t0 t1 ttl : ℚ) (es q : String) (n : Int) :
    searchInformationEngine w cache t0 t1 ttl es q n =
      searchInformationUtils w cache t0 t1 ttl es q n := by
  have hsg : ∀ (q' : String) (n' : Int),
      searchGoogleEngine w q' n' = searchGoogleUtils w q' n' := by
    intro q' n'
    unfold searchGoogleEngine searchGoogleUtils
    rcases hm : makeSearchRequest (w.sg q' n' 0) with e | items
    · have hr : retryWithBackoff (fun k => makeSearchRequest (w.sg q' n' k)) 2 1 =
          (.exn e, [], 1) :=
        retryAux_nonnet 1 1 hm (hfirst q' n' e hm)
      simp only [hm, hr]
    · have hr : retryWithBackoff (fun k => makeSearchRequest (w.sg q' n' k)) 2 1 =
          (.ok items, [], 1) :=
        retryAux_ok 1 1 hm
      simp only [hm, hr]
      cases items <;> rfl
  have hsae : ∀ (q' : String) (n' : Int),
      searchAndExtract searchGoogleEngine w q' n' =
        searchAndExtract searchGoogleUtils w q' n' := by
    intro q' n'
    unfold searchAndExtract
    rw [hsg q' n']
  unfold searchInformationEngine searchInformationUtils searchInformationGen searchInfoCore
  simp only [hsae]

/-- Witness for C9 (amended) at a concrete world whose provider requests
always succeed on the first attempt: the two pipelines agree exactly. -/
theorem c9_pipelines_equal_witness :
    searchInformationEngine okWorld [] 0 1 3600 "0.42" "lean" 5 =
      searchInformationUtils okWorld [] 0 1 3600 "0.42" "lean" 5 :=
  c9_pipelines_equal okWorld
    (fun q' n' e hm => absurd hm (by simp [okWorld, makeSearchRequest]))
    [] 0 1 3600 "0.42" "lean" 5

/-- Counterexample to C9 as stated: in a world where every provider HTTP
request times out on its first attempt and succeeds on the second, the two
copies diverge — the `search_utils` copy retries the provider request,
finds the hit, and returns a formatted document after two provider HTTP
attempts, while the `engine` copy (no retry around `make_search_request`)
converts the timeout into an empty hit list and returns the no-results
message after a single provider HTTP attempt.  Both the returned strings
and the network-event traces differ. -/
theorem c9_counterexample :
    (searchInformationEngine c9World [] 0 1 3600 "0.50" "rust" 5).1 ≠
      (searchInformationUtils c9World [] 0 1 3600 "0.50" "rust" 5).1 ∧
    (searchInformationEngine c9World [] 0 1 3600 "0.50" "rust" 5).2.2 ≠
      (searchInformationUtils c9World [] 0 1 3600 "0.50" "rust" 5).2.2 ∧
    (searchInformationEngine c9World [] 0 1 3600 "0.50" "rust" 5).1 = noResultsMsg ∧
    (searchInformationEngine c9World [] 0 1 3600 "0.50" "rust" 5).2.2 =
      [.sgCall "rust" 5 1] ∧
    (searchInformationUtils c9World [] 0 1 3600 "0.50" "rust" 5).2.2 =
      [.sgCall "rust" 5 2, .pageFetch "http://e.org/p" 1] := by
  refine ⟨by decide, by decide, by decide, by decide, by decide⟩

end SearchAgent
